import Mathlib

/-!
Verification of the kulinar web scraper (`scraping.py`) against its
natural-language specification.

The development shallowly embeds the scraping pipeline: Python strings are
`String`/`List Char`, parsed HTML documents are a `Node` tree supporting the
BeautifulSoup operations the code uses (`find`, `find_all`, `.text`,
`get_text`, attribute subscripting), the network is an oracle
`String → Option Node` (a fetched and parsed page, or `none` on fetch
failure, matching `get_soup`), and Python exceptions are an explicit
`Except PyErr` result: an uncaught exception is an `.error` value.
-/

set_option maxHeartbeats 1000000

namespace KulinarScraper

/-! ## Python string primitives -/

/-- Whitespace characters recognised by Python's argument-less `str.split()` and
`str.strip()`, restricted to the ASCII range plus the no-break space U+00A0;
these are the only whitespace characters this code base manipulates. -/
def pyIsSpace (c : Char) : Bool :=
  c = ' ' || c = '\n' || c = '\t' || c = '\r' ||
    c = Char.ofNat 11 || c = Char.ofNat 12 || c = Char.ofNat 160

/-- Model of Python `str.replace(a, b)` for single-character pattern and
replacement. -/
def pyReplaceChar (a b : Char) (s : List Char) : List Char :=
  s.map fun c => if c = a then b else c

/-- Worker for Python `str.split()`: split on runs of whitespace, dropping
empty fields. The accumulator holds the characters of the current word in
reverse order. -/
def splitAux : List Char → List Char → List (List Char)
  | [], [] => []
  | [], acc => [acc.reverse]
  | c :: rest, acc =>
    if pyIsSpace c then
      match acc with
      | [] => splitAux rest []
      | _ => acc.reverse :: splitAux rest []
    else splitAux rest (c :: acc)

/-- Model of Python `str.split()` with no separator argument. -/
def pySplit (s : List Char) : List (List Char) := splitAux s []

/-- Model of Python `sep.join(words)`. -/
def pyJoin (sep : List Char) : List (List Char) → List Char
  | [] => []
  | [w] => w
  | w :: ws => w ++ sep ++ pyJoin sep ws

/-- Drops leading whitespace. -/
def trimLead (s : List Char) : List Char := s.dropWhile pyIsSpace

/-- Drops trailing whitespace. -/
def trimTrail (s : List Char) : List Char := (s.reverse.dropWhile pyIsSpace).reverse

/-- Model of Python `str.strip()`. -/
def pyStrip (s : String) : String := ⟨trimTrail (trimLead s.data)⟩

/-- Translation of `ScrapingMixin.clean_text`, which evaluates
`' '.join(text.replace('\n', ' ').replace('\xa0', ' ').split())`. -/
def clean_text (text : String) : String :=
  ⟨pyJoin [' ']
    (pySplit (pyReplaceChar (Char.ofNat 160) ' ' (pyReplaceChar '\n' ' ' text.data)))⟩

/-- Collapses every maximal run of whitespace characters to one ordinary
space, keeping non-whitespace characters unchanged. -/
def collapseRuns : List Char → List Char
  | [] => []
  | [c] => [if pyIsSpace c then ' ' else c]
  | c :: d :: rest =>
    if pyIsSpace c && pyIsSpace d then collapseRuns (d :: rest)
    else (if pyIsSpace c then ' ' else c) :: collapseRuns (d :: rest)

/-- Text cleaning exactly as the specification words it: replace line breaks
and non-breaking spaces with ordinary spaces, collapse every run of whitespace
to a single space, and trim both ends. -/
def spec_clean_text (text : String) : String :=
  ⟨trimTrail (trimLead (collapseRuns
    (pyReplaceChar (Char.ofNat 160) ' ' (pyReplaceChar '\n' ' ' text.data))))⟩

/-! ## Parsed documents (the BeautifulSoup interface used by the code) -/

/-- A parsed HTML node: either a text fragment or an element with a tag name,
a list of CSS classes, an attribute list, and child nodes. -/
inductive Node where
  | text (s : String)
  | elem (tag : String) (classes : List String) (attrs : List (String × String)) (children : List Node)

mutual

/-- Pre-order listing of a node and all of its descendants (document order). -/
def Node.nodes : Node → List Node
  | .text s => [.text s]
  | .elem t cs a ch => .elem t cs a ch :: nodesOfList ch

/-- Pre-order listing of all nodes of a forest, in document order. -/
def nodesOfList : List Node → List Node
  | [] => []
  | n :: ns => n.nodes ++ nodesOfList ns

end

/-- Descendants of a node in document order, excluding the node itself;
`find` and `find_all` search this list, as BeautifulSoup does. -/
def Node.descendants : Node → List Node
  | .text _ => []
  | .elem _ _ _ ch => nodesOfList ch

/-- Selector match for `find(tag, class_=cls)`: the element has the given tag
name and, when a class is given, carries it among its classes. Text fragments
never match. -/
def matchSel (tag : String) (cls : Option String) : Node → Bool
  | .text _ => false
  | .elem t cs _ _ =>
    t = tag && (match cls with | none => true | some c => cs.contains c)

/-- Model of BeautifulSoup `find(tag, class_=cls)`: the first matching element
in document order, if any. -/
def Node.find (n : Node) (tag : String) (cls : Option String) : Option Node :=
  n.descendants.find? (matchSel tag cls)

/-- Model of BeautifulSoup `find_all(tag, class_=cls)`: every matching element
in document order. -/
def Node.find_all (n : Node) (tag : String) (cls : Option String) : List Node :=
  n.descendants.filter (matchSel tag cls)

/-- Text fragments of the subtree rooted at a node, in document order. -/
def Node.textFragments (n : Node) : List String :=
  n.nodes.filterMap fun m => match m with | .text s => some s | _ => none

/-- Model of BeautifulSoup `.text` / `.get_text()`: concatenation of every
text fragment below the node, in document order. -/
def Node.getText (n : Node) : String := String.join n.textFragments

/-- Model of BeautifulSoup `.get_text(strip=True)`: each text fragment is
stripped before concatenation. -/
def Node.getTextStrip (n : Node) : String := String.join (n.textFragments.map pyStrip)

/-- Model of reading attribute `key` of an element; `none` models Python's
KeyError on `tag[key]` when the attribute is missing. -/
def Node.attr (n : Node) (key : String) : Option String :=
  match n with
  | .text _ => none
  | .elem _ _ attrs _ => attrs.lookup key

/-! ## Python exceptions -/

/-- Exceptions that the scraping code can raise: AttributeError from calling a
method on `None`, TypeError from subscripting `None`, KeyError from a missing
tag attribute, IndexError from indexing a too-short list. -/
inductive PyErr where
  | attributeError
  | typeError
  | keyError
  | indexError
deriving DecidableEq

/-- Result of running a Python fragment: a value, or an uncaught exception. -/
abbrev Py (α : Type) := Except PyErr α

/-! ## Data model (the dict shapes produced by `to_dict` and the record) -/

/-- Dict produced by `Category.to_dict`. -/
structure CategoryD where
  name : String
  url : String
deriving DecidableEq

/-- Dict produced by `SubCategory.to_dict`. -/
structure SubCategoryD where
  sub_category_name : String
  sub_category_url : String
  recipe_urls : List String
deriving DecidableEq

/-- One cooking stage dict, `{'stage': ..., 'text': ...}`. -/
structure Stage where
  stage : String
  text : String
deriving DecidableEq

/-- The recipe dict built by `extract_recipe_details`. `main_category_url` is
`self.main_category_url`, which can be Python `None`; `cooking_stages` is the
result of `get_cooking_stages`, which can also be Python `None`. -/
structure Recipe where
  recipe_name : String
  url : String
  main_category_name : String
  main_category_url : Option String
  sub_category_name : String
  sub_category_url : String
  main_image_url : String
  description : String
  author_name : String
  ingredients : List String
  cooking_stages : Option (List Stage)
  portion : String
deriving DecidableEq

/-! ## Configuration (pre-validated settings object, keys as in config.json) -/

structure CategoryClasses where
  main_category : String
  category_item : String
  category_text : String

structure RecipesClasses where
  recipes_container : String
  recipe_link : String

structure RecipePageClasses where
  recipe_title : String
  main_image : String
  description : String
  author : String
  author_name : String
  ingredients : String
  cooking_stages : String
  stage_count : String
  portion : String

structure Config where
  base_url : String
  categories_url : String
  main_category_name : String
  category_classes : CategoryClasses
  recipes_classes : RecipesClasses
  recipe_page_classes : RecipePageClasses

/-- State of a `Scraper`/`RecipeScraper` instance: its configuration and the
`main_category_url` attribute (Python `None` until initialised or when the
main category was not found). -/
structure Scraper where
  config : Config
  main_category_url : Option String

/-! ## Translation of the scraping functions

The network never appears: each function that starts from `get_soup(url)`
takes the fetch result as an `Option Node` (or a fetch oracle
`String → Option Node` for the fan-out functions). -/

/-- Loop body of `ScrapingMixin.get_cooking_stages`: for each stage container,
read the stage-count div text and the `p` text. `find` returning `None`
followed by `.text` raises AttributeError, which the surrounding
`except AttributeError` turns into a `None` return for the whole function
(the handler logs and falls off the end of the function); `Option` models
that observable outcome. -/
def stagesLoop (config : Config) : List Node → Option (List Stage)
  | [] => some []
  | item :: rest =>
    match item.find "div" (some config.recipe_page_classes.stage_count) with
    | none => none
    | some countDiv =>
      match item.find "p" none with
      | none => none
      | some pEl =>
        match stagesLoop config rest with
        | none => none
        | some stages =>
          some ({ stage := clean_text countDiv.getText,
                  text := clean_text pEl.getText } :: stages)

/-- Translation of `ScrapingMixin.get_cooking_stages`: iterate the stage
containers in document order; `None` when a stage misses a sub-element. -/
def get_cooking_stages (config : Config) (soup : Node) : Option (List Stage) :=
  stagesLoop config (soup.find_all "div" (some config.recipe_page_classes.cooking_stages))

/-- Loop of the list comprehension in `Scraper.get_categories`: for each
category anchor, read the name div's stripped text (AttributeError when the
div is missing) and the `href` attribute (KeyError when missing), in that
evaluation order. -/
def categoriesLoop (self : Scraper) : List Node → Py (List CategoryD)
  | [] => .ok []
  | url :: rest =>
    match url.find "div" (some self.config.category_classes.category_text) with
    | none => .error .attributeError
    | some nameDiv =>
      match url.attr "href" with
      | none => .error .keyError
      | some href =>
        match categoriesLoop self rest with
        | .error e => .error e
        | .ok cats =>
          .ok ({ name := nameDiv.getTextStrip,
                 url := self.config.base_url ++ href } :: cats)

/-- Body of the `try` block of `Scraper.get_categories`: locate the categories
container (calling `find_all` on `None` raises AttributeError when it is
missing) and build one Category dict per category anchor. -/
def categories_body (self : Scraper) (soup : Node) : Py (List CategoryD) :=
  match soup.find "div" (some self.config.category_classes.main_category) with
  | none => .error .attributeError
  | some categories_div =>
    categoriesLoop self
      (categories_div.find_all "a" (some self.config.category_classes.category_item))

/-- Translation of `Scraper.get_categories`: on fetch failure return the empty
list; otherwise run the body, converting AttributeError to the empty list.
Any other exception (KeyError from a missing `href`) propagates. -/
def get_categories (self : Scraper) (soup : Option Node) : Py (List CategoryD) :=
  match soup with
  | none => .ok []
  | some soup =>
    match categories_body self soup with
    | .error .attributeError => .ok []
    | r => r

/-- Translation of `Scraper.get_one_category_url`: linear scan returning the
URL of the first category whose name equals the configured main category
name, `None` when there is none. -/
def get_one_category_url (self : Scraper) : List CategoryD → Option String
  | [] => none
  | category :: rest =>
    if category.name = self.config.main_category_name then some category.url
    else get_one_category_url self rest

/-- Loop of the list comprehension in `Scraper._extract_recipe_urls`: read
each recipe anchor's `href` (KeyError when missing) and resolve it against
the base URL. -/
def linksLoop (self : Scraper) : List Node → Py (List String)
  | [] => .ok []
  | link :: rest =>
    match link.attr "href" with
    | none => .error .keyError
    | some href =>
      match linksLoop self rest with
      | .error e => .error e
      | .ok urls => .ok ((self.config.base_url ++ href) :: urls)

/-- Body of the `try` block of `Scraper._extract_recipe_urls`: locate the
recipes container (AttributeError via `find_all` on `None` when missing),
collect the recipe links, and wrap the single SubCategory dict in a list. -/
def recipe_urls_body (self : Scraper) (soup : Node) (category : CategoryD) :
    Py (List SubCategoryD) :=
  match soup.find "div" (some self.config.recipes_classes.recipes_container) with
  | none => .error .attributeError
  | some container =>
    match linksLoop self
        (container.find_all "a" (some self.config.recipes_classes.recipe_link)) with
    | .error e => .error e
    | .ok urls =>
      .ok [{ sub_category_name := category.name,
             sub_category_url := category.url,
             recipe_urls := urls }]

/-- Translation of `Scraper._extract_recipe_urls`: on fetch failure the code
logs and returns the empty list (not a SubCategory); AttributeError from the
body also yields the empty list; KeyError propagates. -/
def _extract_recipe_urls (self : Scraper) (soup : Option Node) (category : CategoryD) :
    Py (List SubCategoryD) :=
  match soup with
  | none => .ok []
  | some soup =>
    match recipe_urls_body self soup category with
    | .error .attributeError => .ok []
    | r => r

/-- Gather of `Scraper.get_all_recipes_urls`: run `_extract_recipe_urls` for
every category in order; `asyncio.gather` keeps results in task order and
propagates the first exception. -/
def gatherUrls (self : Scraper) (fetch : String → Option Node) :
    List CategoryD → Py (List (List SubCategoryD))
  | [] => .ok []
  | category :: rest =>
    match _extract_recipe_urls self (fetch category.url) category with
    | .error e => .error e
    | .ok r =>
      match gatherUrls self fetch rest with
      | .error e => .error e
      | .ok rs => .ok (r :: rs)

/-- Translation of `Scraper.get_all_recipes_urls`: the blanket
`except Exception` around the gather converts any exception into the empty
list. -/
def get_all_recipes_urls (self : Scraper) (fetch : String → Option Node)
    (categories : List CategoryD) : List (List SubCategoryD) :=
  match gatherUrls self fetch categories with
  | .ok r => r
  | .error _ => []

/-- Body of the `try` block of `RecipeScraper.extract_recipe_details`. Each
`find(...)` returning `None` followed by `.get_text()` raises AttributeError;
`find('img')` returning `None` followed by `['src']` raises TypeError (`None`
is not subscriptable); a present `img` without `src` raises KeyError; and
`find_all(...)[1]` raises IndexError when fewer than two portion elements
match. The cooking-stages value is whatever `get_cooking_stages` returned,
including Python `None`. The Python locals `ingredients`, `cooking_stages`
and `portion` are pure and used once, so they are inlined into the record
literal. -/
def recipe_body (self : Scraper) (soup : Node)
    (recipe_url sub_category_name sub_category_url : String) : Py Recipe :=
  match soup.find "div" (some self.config.recipe_page_classes.recipe_title) with
  | none => .error .attributeError
  | some titleDiv =>
    match soup.find "div" (some self.config.recipe_page_classes.main_image) with
    | none => .error .attributeError
    | some imageDiv =>
      match imageDiv.find "img" none with
      | none => .error .typeError
      | some img =>
        match img.attr "src" with
        | none => .error .keyError
        | some main_image_url =>
          match soup.find "div" (some self.config.recipe_page_classes.description) with
          | none => .error .attributeError
          | some descDiv =>
            match soup.find "div" (some self.config.recipe_page_classes.author) with
            | none => .error .attributeError
            | some authorDiv =>
              match authorDiv.find self.config.recipe_page_classes.author_name none with
              | none => .error .attributeError
              | some authorEl =>
                match (soup.find_all "div" (some self.config.recipe_page_classes.portion)).get? 1 with
                | none => .error .indexError
                | some portionEl =>
                  .ok { recipe_name := clean_text titleDiv.getText,
                        url := recipe_url,
                        main_category_name := self.config.main_category_name,
                        main_category_url := self.main_category_url,
                        sub_category_name := sub_category_name,
                        sub_category_url := sub_category_url,
                        main_image_url := main_image_url,
                        description := clean_text descDiv.getText,
                        author_name := clean_text authorEl.getText,
                        ingredients :=
                          (soup.find_all "div"
                            (some self.config.recipe_page_classes.ingredients)).map
                              fun d => clean_text d.getText,
                        cooking_stages := get_cooking_stages self.config soup,
                        portion :=
                          if pyStrip portionEl.getText = "ულუფა" then "1 ულუფა"
                          else pyStrip portionEl.getText }

/-- Translation of `RecipeScraper.extract_recipe_details`: fetch failure gives
`None`; AttributeError in the body is caught, logged, and gives `None`; every
other exception propagates. -/
def extract_recipe_details (self : Scraper) (soup : Option Node)
    (recipe_url sub_category_name sub_category_url : String) : Py (Option Recipe) :=
  match soup with
  | none => .ok none
  | some soup =>
    match recipe_body self soup recipe_url sub_category_name sub_category_url with
    | .ok r => .ok (some r)
    | .error .attributeError => .ok none
    | .error e => .error e

/-- Task list of `RecipeScraper.scrape_recipe`: one
(recipe url, sub-category name, sub-category url) triple per recipe URL, in
the nested loop order over the sub-categories. -/
def recipeTasks (data : List SubCategoryD) : List (String × String × String) :=
  (data.map fun sub_category =>
    sub_category.recipe_urls.map fun recipe_url =>
      (recipe_url, sub_category.sub_category_name, sub_category.sub_category_url)).flatten

/-- Gather of `RecipeScraper.scrape_recipe`: run the extraction tasks,
keeping results in task order and propagating the first exception. -/
def gatherExtract (self : Scraper) (fetch : String → Option Node) :
    List (String × String × String) → Py (List (Option Recipe))
  | [] => .ok []
  | t :: ts =>
    match extract_recipe_details self (fetch t.1) t.1 t.2.1 t.2.2 with
    | .error e => .error e
    | .ok r =>
      match gatherExtract self fetch ts with
      | .error e => .error e
      | .ok rs => .ok (r :: rs)

/-- Translation of `RecipeScraper.scrape_recipe`: build the task list and
gather it. -/
def scrape_recipe (self : Scraper) (fetch : String → Option Node)
    (data : List SubCategoryD) : Py (List (Option Recipe)) :=
  gatherExtract self fetch (recipeTasks data)

/-- Orchestration in `main` after sub-category discovery: collect the recipe
URL lists, flatten them, and scrape every recipe; `results` is handed as is
to printing and to persistence. -/
def main_results (self : Scraper) (fetch : String → Option Node)
    (sub_categories : List CategoryD) : Py (List (Option Recipe)) :=
  let recipes := get_all_recipes_urls self fetch sub_categories
  let flattened_recipes := recipes.flatten
  scrape_recipe self fetch flattened_recipes

/-! ## Result classifiers -/

/-- Holds exactly when a Python fragment ended in an uncaught AttributeError. -/
def is_attribute_failure {α : Type} : Py α → Bool
  | .error .attributeError => true
  | _ => false

/-- Holds exactly when a per-recipe extraction completed with the absent
value. -/
def is_absent : Py (Option Recipe) → Bool
  | .ok none => true
  | _ => false

/-! ## Concrete fixtures used by witnesses and counterexamples -/

/-- Fixture configuration with short selector class names. -/
def cfgX : Config :=
  { base_url := "B", categories_url := "/cats", main_category_name := "Main",
    category_classes := { main_category := "mc", category_item := "ci", category_text := "ct" },
    recipes_classes := { recipes_container := "rc", recipe_link := "rl" },
    recipe_page_classes :=
      { recipe_title := "t", main_image := "mi", description := "d", author := "a",
        author_name := "span", ingredients := "ing", cooking_stages := "cs",
        stage_count := "sc", portion := "p" } }

/-- Fixture scraper with an initialised main category URL. -/
def scraperX : Scraper := { config := cfgX, main_category_url := some "B/main" }

def titleDivX : Node := .elem "div" ["t"] [] [.text "Title"]

def imageDivX : Node := .elem "div" ["mi"] [] [.elem "img" [] [("src", "IMG")] []]

def descDivX : Node := .elem "div" ["d"] [] [.text "Desc"]

def authorDivX : Node := .elem "div" ["a"] [] [.elem "span" [] [] [.text "Auth"]]

def ingDivX : Node := .elem "div" ["ing"] [] [.text "i1"]

/-- Well-formed stage container: a stage-count div and a `p` description. -/
def stageGoodX : Node :=
  .elem "div" ["cs"] [] [.elem "div" ["sc"] [] [.text "1"], .elem "p" [] [] [.text "cook"]]

/-- Malformed stage container: the `p` description element is missing. -/
def stageBadX : Node := .elem "div" ["cs"] [] [.elem "div" ["sc"] [] [.text "1"]]

def portionFirstX : Node := .elem "div" ["p"] [] [.text "x"]

def portionSecondX : Node := .elem "div" ["p"] [] [.text "2 ულუფა"]

/-- Portion element whose stripped text is the bare singular word. -/
def portionBareX : Node := .elem "div" ["p"] [] [.text " ულუფა "]

/-- Fully well-formed recipe detail page. -/
def docGoodX : Node :=
  .elem "html" [] []
    [titleDivX, imageDivX, descDivX, authorDivX, ingDivX, stageGoodX,
     portionFirstX, portionSecondX]

/-- Recipe page whose only flaw is a stage container missing its `p`. -/
def docBadStageX : Node :=
  .elem "html" [] []
    [titleDivX, imageDivX, descDivX, authorDivX, ingDivX, stageBadX,
     portionFirstX, portionSecondX]

/-- Recipe page missing the title container. -/
def docNoTitleX : Node :=
  .elem "html" [] []
    [imageDivX, descDivX, authorDivX, ingDivX, stageGoodX, portionFirstX, portionSecondX]

/-- Recipe page with only one portion-indicator element. -/
def docOnePortionX : Node :=
  .elem "html" [] []
    [titleDivX, imageDivX, descDivX, authorDivX, ingDivX, stageGoodX, portionFirstX]

/-- Recipe page whose image container has no `img` element. -/
def docNoImgX : Node :=
  .elem "html" [] []
    [titleDivX, .elem "div" ["mi"] [] [.text "no image"], descDivX, authorDivX,
     ingDivX, stageGoodX, portionFirstX, portionSecondX]

/-- Recipe page with no element matching the ingredients selector. -/
def docNoIngrX : Node :=
  .elem "html" [] []
    [titleDivX, imageDivX, descDivX, authorDivX, stageGoodX, portionFirstX, portionSecondX]

/-- Recipe page whose second portion element carries the bare singular word. -/
def docPortionBareX : Node :=
  .elem "html" [] []
    [titleDivX, imageDivX, descDivX, authorDivX, ingDivX, stageGoodX,
     portionFirstX, portionBareX]

def anchor1X : Node :=
  .elem "a" ["ci"] [("href", "/c1")] [.elem "div" ["ct"] [] [.text " Cat1 "]]

def anchor2X : Node :=
  .elem "a" ["ci"] [("href", "/c2")] [.elem "div" ["ct"] [] [.text "Cat2"]]

def catContainerX : Node := .elem "div" ["mc"] [] [anchor1X, anchor2X]

/-- Category index page with two valid category anchors. -/
def catPageX : Node := .elem "html" [] [] [catContainerX]

/-- Sub-category listing page with three recipe links. -/
def listingX : Node :=
  .elem "html" [] []
    [.elem "div" ["rc"] []
      [.elem "a" ["rl"] [("href", "/r1")] [],
       .elem "a" ["rl"] [("href", "/r2")] [],
       .elem "a" ["rl"] [("href", "/r3")] []]]

def catX : CategoryD := { name := "Cat1", url := "LC" }

def subcatX : SubCategoryD :=
  { sub_category_name := "Cat1", sub_category_url := "LC",
    recipe_urls := ["B/r1", "B/r2", "B/r3"] }

/-- Fixture network: the listing page plus three recipe pages, the second of
which is structurally broken (missing title). -/
def fetchX : String → Option Node := fun url =>
  if url = "LC" then some listingX
  else if url = "B/r1" then some docGoodX
  else if url = "B/r2" then some docNoTitleX
  else if url = "B/r3" then some docGoodX
  else none

def stageX : Stage := { stage := "1", text := "cook" }

/-- The record `extract_recipe_details` produces from `docGoodX`-shaped pages
fetched through `fetchX` as part of sub-category `Cat1`. -/
def recFixture (recipe_url : String) (stages : Option (List Stage)) : Recipe :=
  { recipe_name := "Title", url := recipe_url, main_category_name := "Main",
    main_category_url := some "B/main", sub_category_name := "Cat1",
    sub_category_url := "LC", main_image_url := "IMG", description := "Desc",
    author_name := "Auth", ingredients := ["i1"], cooking_stages := stages,
    portion := "2 ულუფა" }

/-- The record extracted from `docPortionBareX`, with the normalised portion. -/
def recPortionBareX : Recipe :=
  { recFixture "B/r1" (some [stageX]) with portion := "1 ულუფა" }

/-- Result sequence of the fixture run: three submitted pairs, the middle one
failing structurally. -/
def resX : List (Option Recipe) :=
  [some (recFixture "B/r1" (some [stageX])), none, some (recFixture "B/r3" (some [stageX]))]

/-! ## Lemmas: `clean_text` agrees with the specified normalisation -/

theorem splitAux_space_nil {c : Char} (s : List Char) (hc : pyIsSpace c = true) :
    splitAux (c :: s) [] = splitAux s [] := by
  simp [splitAux, hc]

theorem splitAux_word (w : List Char) (s acc : List Char)
    (hw : ∀ c ∈ w, pyIsSpace c = false) :
    splitAux (w ++ s) acc = splitAux s (w.reverse ++ acc) := by
  induction w generalizing acc with
  | nil => simp
  | cons c w ih =>
    have hc : pyIsSpace c = false := hw c (List.mem_cons_self c w)
    have hw' : ∀ x ∈ w, pyIsSpace x = false := fun x hx => hw x (List.mem_cons_of_mem c hx)
    simp [splitAux, hc, ih _ hw', List.append_assoc]

theorem splitAux_nil_flush (acc : List Char) (h : acc ≠ []) :
    splitAux [] acc = [acc.reverse] := by
  cases acc with
  | nil => exact absurd rfl h
  | cons a acc => simp [splitAux]

theorem splitAux_cons_flush (c : Char) (rest acc : List Char)
    (hc : pyIsSpace c = true) (h : acc ≠ []) :
    splitAux (c :: rest) acc = acc.reverse :: splitAux rest [] := by
  cases acc with
  | nil => exact absurd rfl h
  | cons a acc => simp [splitAux, hc]

theorem splitAux_dropWhile (s : List Char) :
    splitAux s [] = splitAux (s.dropWhile pyIsSpace) [] := by
  induction s with
  | nil => rfl
  | cons c rest ih =>
    cases hc : pyIsSpace c with
    | true => rw [splitAux_space_nil rest hc, ih]; simp [List.dropWhile_cons, hc]
    | false => simp [List.dropWhile_cons, hc]

theorem dropWhile_head_false (p : Char → Bool) (s : List Char) (c : Char) (t : List Char)
    (h : s.dropWhile p = c :: t) : p c = false := by
  induction s with
  | nil => simp at h
  | cons a s ih =>
    cases ha : p a with
    | true =>
      simp [List.dropWhile_cons, ha] at h
      exact ih h
    | false =>
      simp [List.dropWhile_cons, ha] at h
      obtain ⟨h1, _⟩ := h
      subst h1
      exact ha

theorem pySplit_cons_word (c : Char) (t : List Char) (hc : pyIsSpace c = false) :
    pySplit (c :: t) =
      (c :: t.takeWhile fun x => !pyIsSpace x) ::
        pySplit (t.dropWhile fun x => !pyIsSpace x) := by
  have hW : ∀ x ∈ c :: t.takeWhile (fun x => !pyIsSpace x), pyIsSpace x = false := by
    intro x hx
    cases List.mem_cons.mp hx with
    | inl h => subst h; exact hc
    | inr h => simpa using List.mem_takeWhile_imp h
  have hct : (c :: t.takeWhile (fun x => !pyIsSpace x)) ++ t.dropWhile (fun x => !pyIsSpace x)
      = c :: t := by
    rw [List.cons_append, List.takeWhile_append_dropWhile]
  have h1 : pySplit (c :: t)
      = splitAux (t.dropWhile fun x => !pyIsSpace x)
          (c :: t.takeWhile fun x => !pyIsSpace x).reverse := by
    unfold pySplit
    rw [← hct, splitAux_word _ _ _ hW, List.append_nil]
  rw [h1]
  cases hR : t.dropWhile (fun x => !pyIsSpace x) with
  | nil =>
    rw [splitAux_nil_flush _ (by simp), List.reverse_reverse]
    rfl
  | cons d r =>
    have hd : pyIsSpace d = true := by
      have := dropWhile_head_false (fun x => !pyIsSpace x) t d r hR
      simpa using this
    rw [splitAux_cons_flush d r _ hd (by simp), List.reverse_reverse]
    unfold pySplit
    rw [splitAux_space_nil r hd]

theorem pySplit_all_space (s : List Char) (h : ∀ c ∈ s, pyIsSpace c = true) :
    pySplit s = [] := by
  unfold pySplit
  rw [splitAux_dropWhile, List.dropWhile_eq_nil_iff.mpr (by intro x hx; simpa using h x hx)]
  rfl

theorem collapseRuns_cons_nonspace (c : Char) (t : List Char) (hc : pyIsSpace c = false) :
    collapseRuns (c :: t) = c :: collapseRuns t := by
  cases t with
  | nil => simp [collapseRuns, hc]
  | cons d r => simp [collapseRuns, hc]

theorem collapseRuns_word (w t : List Char) (hw : ∀ c ∈ w, pyIsSpace c = false) :
    collapseRuns (w ++ t) = w ++ collapseRuns t := by
  induction w with
  | nil => rfl
  | cons c w ih =>
    rw [List.cons_append, collapseRuns_cons_nonspace _ _ (hw c (List.mem_cons_self c w)),
      ih fun x hx => hw x (List.mem_cons_of_mem c hx), List.cons_append]

theorem collapseRuns_all_space :
    ∀ s : List Char, s ≠ [] → (∀ c ∈ s, pyIsSpace c = true) → collapseRuns s = [' ']
  | [], hs, _ => absurd rfl hs
  | [c], _, h => by simp [collapseRuns, h c (List.mem_cons_self c [])]
  | c :: d :: r, _, h => by
    have hc : pyIsSpace c = true := h c (List.mem_cons_self _ _)
    have hd : pyIsSpace d = true := h d (by simp)
    rw [show collapseRuns (c :: d :: r) = collapseRuns (d :: r) by simp [collapseRuns, hc, hd]]
    exact collapseRuns_all_space (d :: r) (by simp) fun x hx => h x (List.mem_cons_of_mem c hx)

theorem collapseRuns_space_block :
    ∀ sp : List Char, sp ≠ [] → (∀ c ∈ sp, pyIsSpace c = true) →
      ∀ (d : Char) (t : List Char), pyIsSpace d = false →
        collapseRuns (sp ++ d :: t) = ' ' :: collapseRuns (d :: t)
  | [], hs, _, _, _, _ => absurd rfl hs
  | [c], _, h, d, t, hd => by
    have hc : pyIsSpace c = true := h c (List.mem_cons_self _ _)
    simp [collapseRuns, hc, hd]
  | c :: c2 :: sp, _, h, d, t, hd => by
    have hc : pyIsSpace c = true := h c (List.mem_cons_self _ _)
    have hc2 : pyIsSpace c2 = true := h c2 (by simp)
    rw [show (c :: c2 :: sp) ++ d :: t = c :: c2 :: (sp ++ d :: t) by simp,
      show collapseRuns (c :: c2 :: (sp ++ d :: t)) = collapseRuns (c2 :: (sp ++ d :: t)) by
        simp [collapseRuns, hc, hc2]]
    exact collapseRuns_space_block (c2 :: sp) (by simp)
      (fun x hx => h x (List.mem_cons_of_mem c hx)) d t hd

theorem trimLead_cons_space (c : Char) (t : List Char) (hc : pyIsSpace c = true) :
    trimLead (c :: t) = trimLead t := by
  simp [trimLead, List.dropWhile_cons, hc]

theorem trimLead_cons_nonspace (c : Char) (t : List Char) (hc : pyIsSpace c = false) :
    trimLead (c :: t) = c :: t := by
  simp [trimLead, List.dropWhile_cons, hc]

theorem dropWhile_all_false (p : Char → Bool) (l : List Char) (h : ∀ c ∈ l, p c = false) :
    l.dropWhile p = l := by
  cases l with
  | nil => rfl
  | cons c t => simp [List.dropWhile_cons, h c (List.mem_cons_self _ _)]

theorem trimTrail_no_space (l : List Char) (h : ∀ c ∈ l, pyIsSpace c = false) :
    trimTrail l = l := by
  unfold trimTrail
  rw [dropWhile_all_false _ _ fun c hc => h c (List.mem_reverse.mp hc), List.reverse_reverse]

theorem trimTrail_append_space (l : List Char) (x : Char) (hx : pyIsSpace x = true) :
    trimTrail (l ++ [x]) = trimTrail l := by
  unfold trimTrail
  simp [List.reverse_append, List.dropWhile_cons, hx]

theorem dropWhile_append_of_ne_nil (p : Char → Bool) :
    ∀ u v : List Char, u.dropWhile p ≠ [] → (u ++ v).dropWhile p = u.dropWhile p ++ v
  | [], _, h => absurd rfl h
  | c :: u, v, h => by
    cases hc : p c with
    | false => simp [List.dropWhile_cons, hc]
    | true =>
      have h' : u.dropWhile p ≠ [] := by simpa [List.dropWhile_cons, hc] using h
      simpa [List.dropWhile_cons, hc] using dropWhile_append_of_ne_nil p u v h'

theorem dropWhile_ne_nil_of_mem (p : Char → Bool) :
    ∀ (l : List Char) (x : Char), x ∈ l → p x = false → l.dropWhile p ≠ []
  | [], x, hx, _ => absurd hx (List.not_mem_nil x)
  | c :: l, x, hx, hpx => by
    cases hc : p c with
    | false => simp [List.dropWhile_cons, hc]
    | true =>
      have hxl : x ∈ l := by
        cases List.mem_cons.mp hx with
        | inl h =>
          subst h
          rw [hpx] at hc
          exact Bool.noConfusion hc
        | inr h => exact h
      simpa [List.dropWhile_cons, hc] using dropWhile_ne_nil_of_mem p l x hxl hpx

theorem trimTrail_append (a b : List Char) (x : Char) (hx : x ∈ b)
    (hpx : pyIsSpace x = false) :
    trimTrail (a ++ b) = a ++ trimTrail b := by
  unfold trimTrail
  rw [List.reverse_append,
    dropWhile_append_of_ne_nil _ _ _ (dropWhile_ne_nil_of_mem _ _ x (List.mem_reverse.mpr hx) hpx),
    List.reverse_append, List.reverse_reverse]

theorem pyJoin_cons_cons (sep w v : List Char) (t : List (List Char)) :
    pyJoin sep (w :: v :: t) = w ++ sep ++ pyJoin sep (v :: t) := rfl

theorem join_split_eq_trim_collapse :
    ∀ (n : Nat) (s : List Char), s.length ≤ n →
      pyJoin [' '] (pySplit s) = trimTrail (trimLead (collapseRuns s)) := by
  intro n
  induction n with
  | zero =>
    intro s hs
    have h0 : s = [] := List.eq_nil_of_length_eq_zero (Nat.le_zero.mp hs)
    subst h0
    rfl
  | succ n ih =>
    intro s hs
    cases hd : s.dropWhile pyIsSpace with
    | nil =>
      have hall : ∀ c ∈ s, pyIsSpace c = true := by
        intro c hcm
        simpa using List.dropWhile_eq_nil_iff.mp hd c hcm
      rw [pySplit_all_space s hall]
      cases s with
      | nil => rfl
      | cons c t =>
        rw [collapseRuns_all_space (c :: t) (by simp) hall]
        decide
    | cons c t =>
      have hc : pyIsSpace c = false := dropWhile_head_false pyIsSpace s c t hd
      have hsplit_s : pySplit s = pySplit (c :: t) := by
        unfold pySplit
        rw [splitAux_dropWhile s, hd]
      have hsplit_ct := pySplit_cons_word c t hc
      have hWns : ∀ x ∈ c :: t.takeWhile (fun x => !pyIsSpace x), pyIsSpace x = false := by
        intro x hx
        cases List.mem_cons.mp hx with
        | inl h => subst h; exact hc
        | inr h => simpa using List.mem_takeWhile_imp h
      have hct : (c :: t.takeWhile (fun x => !pyIsSpace x)) ++ t.dropWhile (fun x => !pyIsSpace x)
          = c :: t := by
        rw [List.cons_append, List.takeWhile_append_dropWhile]
      have hcoll_ct : collapseRuns (c :: t)
          = (c :: t.takeWhile (fun x => !pyIsSpace x))
              ++ collapseRuns (t.dropWhile fun x => !pyIsSpace x) := by
        rw [← hct, collapseRuns_word _ _ hWns]
      have hkey : trimLead (collapseRuns s)
          = (c :: t.takeWhile (fun x => !pyIsSpace x))
              ++ collapseRuns (t.dropWhile fun x => !pyIsSpace x) := by
        have hsdec : s.takeWhile pyIsSpace ++ (c :: t) = s := by
          rw [← hd]; exact List.takeWhile_append_dropWhile _ _
        cases hSP : s.takeWhile pyIsSpace with
        | nil =>
          rw [hSP] at hsdec
          rw [show s = c :: t by rw [← hsdec]; rfl, hcoll_ct, List.cons_append,
            trimLead_cons_nonspace _ _ hc, ← List.cons_append]
        | cons a sp =>
          have hSPall : ∀ x ∈ s.takeWhile pyIsSpace, pyIsSpace x = true := by
            intro x hx
            simpa using List.mem_takeWhile_imp hx
          rw [← hsdec, collapseRuns_space_block (s.takeWhile pyIsSpace)
              (by rw [hSP]; simp) hSPall c t hc,
            trimLead_cons_space _ _ (by decide), hcoll_ct, List.cons_append,
            trimLead_cons_nonspace _ _ hc, ← List.cons_append]
      have hRlen : (t.dropWhile fun x => !pyIsSpace x).length ≤ n := by
        have h1 : (c :: t).length ≤ s.length := by
          rw [← hd]; exact (List.dropWhile_sublist pyIsSpace).length_le
        have h2 : (t.dropWhile fun x => !pyIsSpace x).length ≤ t.length :=
          (List.dropWhile_sublist _).length_le
        simp only [List.length_cons] at h1
        omega
      cases hRd : (t.dropWhile fun x => !pyIsSpace x).dropWhile pyIsSpace with
      | nil =>
        have hallR : ∀ x ∈ t.dropWhile (fun x => !pyIsSpace x), pyIsSpace x = true := by
          intro x hx
          simpa using List.dropWhile_eq_nil_iff.mp hRd x hx
        rw [hsplit_s, hsplit_ct, pySplit_all_space _ hallR, hkey]
        cases hRnil : t.dropWhile (fun x => !pyIsSpace x) with
        | nil =>
          rw [show collapseRuns ([] : List Char) = [] from rfl, List.append_nil]
          exact (trimTrail_no_space _ hWns).symm
        | cons d r =>
          rw [collapseRuns_all_space (d :: r) (by simp) (by rw [← hRnil]; exact hallR),
            trimTrail_append_space _ ' ' (by decide), trimTrail_no_space _ hWns]
          rfl
      | cons e u =>
        have he : pyIsSpace e = false := dropWhile_head_false pyIsSpace _ e u hRd
        have hRne : t.dropWhile (fun x => !pyIsSpace x) ≠ [] := by
          intro hnil
          rw [hnil] at hRd
          exact List.noConfusion hRd
        obtain ⟨d, r, hRcons⟩ : ∃ d r, t.dropWhile (fun x => !pyIsSpace x) = d :: r := by
          cases hRc : t.dropWhile (fun x => !pyIsSpace x) with
          | nil => exact absurd hRc hRne
          | cons d r => exact ⟨d, r, rfl⟩
        have hdsp : pyIsSpace d = true := by
          have := dropWhile_head_false (fun x => !pyIsSpace x) t d r hRcons
          simpa using this
        have hRdec : (t.dropWhile fun x => !pyIsSpace x).takeWhile pyIsSpace ++ (e :: u)
            = t.dropWhile fun x => !pyIsSpace x := by
          rw [← hRd]; exact List.takeWhile_append_dropWhile _ _
        have hcollR : collapseRuns (t.dropWhile fun x => !pyIsSpace x)
            = ' ' :: collapseRuns (e :: u) := by
          rw [← hRdec]
          refine collapseRuns_space_block _ ?_ ?_ e u he
          · rw [hRcons]
            simp [List.takeWhile_cons, hdsp]
          · intro x hx
            simpa using List.mem_takeWhile_imp hx
        have hIH := ih (t.dropWhile fun x => !pyIsSpace x) hRlen
        rw [hcollR, trimLead_cons_space _ _ (by decide),
          collapseRuns_cons_nonspace e _ he, trimLead_cons_nonspace _ _ he,
          ← collapseRuns_cons_nonspace e _ he] at hIH
        have hpR : pySplit (t.dropWhile fun x => !pyIsSpace x) = pySplit (e :: u) := by
          unfold pySplit
          rw [splitAux_dropWhile, hRd]
        have hpRcons := pySplit_cons_word e u he
        have hmem : e ∈ collapseRuns (e :: u) := by
          rw [collapseRuns_cons_nonspace e _ he]
          exact List.mem_cons_self _ _
        rw [hsplit_s, hsplit_ct, hkey, hcollR, hpR, hpRcons, pyJoin_cons_cons,
          ← hpRcons, ← hpR, hIH,
          show (c :: List.takeWhile (fun x => !pyIsSpace x) t) ++ ' ' :: collapseRuns (e :: u)
              = ((c :: List.takeWhile (fun x => !pyIsSpace x) t) ++ [' ']) ++ collapseRuns (e :: u)
            by simp,
          trimTrail_append _ _ e hmem he]

/-- C7: for every input string, `clean_text` replaces line breaks and
non-breaking spaces with ordinary spaces, collapses every run of whitespace to
a single space and trims both ends (it agrees with the specified normalisation
`spec_clean_text` on every input), and maps the example input to the example
output. -/
theorem C7_clean_text_normalises :
    (∀ s : String, clean_text s = spec_clean_text s) ∧
    clean_text "Step\n\xa0 one   two" = "Step one two" := by
  constructor
  · intro s
    unfold clean_text spec_clean_text
    exact congrArg String.mk (join_split_eq_trim_collapse _ _ le_rfl)
  · rfl

/-! ## Lemmas: successful recipe extraction -/

/-- When the body of `extract_recipe_details` succeeds, the record embeds the
raw `get_cooking_stages` result, the cleaned ingredient texts, and the
normalised text of the second portion element. -/
theorem recipe_body_ok_spec (self : Scraper) (soup : Node)
    (recipe_url sub_category_name sub_category_url : String) (r : Recipe)
    (h : recipe_body self soup recipe_url sub_category_name sub_category_url = .ok r) :
    r.cooking_stages = get_cooking_stages self.config soup ∧
    r.ingredients = (soup.find_all "div" (some self.config.recipe_page_classes.ingredients)).map
      (fun d => clean_text d.getText) ∧
    ∃ portionEl,
      (soup.find_all "div" (some self.config.recipe_page_classes.portion)).get? 1
        = some portionEl ∧
      r.portion = if pyStrip portionEl.getText = "ულუფა" then "1 ულუფა"
                  else pyStrip portionEl.getText := by
  unfold recipe_body at h
  iterate 8 (split at h <;> try exact Except.noConfusion h)
  rename_i portionEl hpe
  injection h with hr
  subst hr
  exact ⟨rfl, rfl, portionEl, hpe, rfl⟩

/-- C1 [corrected]: a missing title element (an AttributeError case) does make
`extract` return absent, but whenever a record is returned its
`cooking_stages` field is exactly the raw `get_cooking_stages` result — which
is `None` when a stage container misses a sub-element, so a record with a
null `cookingStages` field can be emitted. -/
theorem C1_required_title_and_stage_embedding (self : Scraper) (soup : Node)
    (recipe_url sub_category_name sub_category_url : String) :
    (soup.find "div" (some self.config.recipe_page_classes.recipe_title) = none →
      extract_recipe_details self (some soup) recipe_url sub_category_name sub_category_url
        = .ok none) ∧
    ∀ r, extract_recipe_details self (some soup) recipe_url sub_category_name sub_category_url
        = .ok (some r) →
      r.cooking_stages = get_cooking_stages self.config soup := by
  constructor
  · intro h
    simp only [extract_recipe_details, recipe_body, h]
  · intro r h
    simp only [extract_recipe_details] at h
    cases hb : recipe_body self soup recipe_url sub_category_name sub_category_url with
    | ok r2 =>
      rw [hb] at h
      injection h with h2
      injection h2 with h3
      subst h3
      exact (recipe_body_ok_spec self soup _ _ _ r2 hb).1
    | error e =>
      rw [hb] at h
      cases e with
      | attributeError =>
        injection h with h2
        exact Option.noConfusion h2
      | typeError => exact Except.noConfusion h
      | keyError => exact Except.noConfusion h
      | indexError => exact Except.noConfusion h

/-- Witness for C1: the amended theorem applied to the fixture pages — the
title-less page yields absent, and the record extracted from the
malformed-stage page carries the raw stage-extraction result. -/
theorem C1_witness :
    extract_recipe_details scraperX (some docNoTitleX) "B/r2" "Cat1" "LC" = .ok none ∧
    (recFixture "B/r1" none).cooking_stages = get_cooking_stages cfgX docBadStageX := by
  constructor
  · exact (C1_required_title_and_stage_embedding scraperX docNoTitleX "B/r2" "Cat1" "LC").1 rfl
  · exact (C1_required_title_and_stage_embedding scraperX docBadStageX "B/r1" "Cat1" "LC").2
      (recFixture "B/r1" none) rfl

/-- C1 counterexample: on a page whose only flaw is a stage container missing
its `p` element, `extract_recipe_details` returns a record (not absent) whose
`cooking_stages` field is null — a partially-populated record. -/
theorem C1_counterexample :
    Except.map (Option.map Recipe.cooking_stages)
      (extract_recipe_details scraperX (some docBadStageX) "B/r1" "Cat1" "LC")
      = .ok (some none) := rfl

/-- C2 [corrected]: `extract_recipe_details` never lets an AttributeError
escape (missing title, description, author or image containers become the
absent value), but it does raise for other shapes — here TypeError for an
image container without an `img` element. -/
theorem C2_attribute_errors_caught_but_others_raise (self : Scraper) (soup : Option Node)
    (recipe_url sub_category_name sub_category_url : String) :
    is_attribute_failure
      (extract_recipe_details self soup recipe_url sub_category_name sub_category_url) = false ∧
    extract_recipe_details scraperX (some docNoImgX) "B/r1" "Cat1" "LC" = .error .typeError := by
  constructor
  · cases soup with
    | none => rfl
    | some s =>
      simp only [extract_recipe_details]
      cases recipe_body self s recipe_url sub_category_name sub_category_url with
      | ok r => rfl
      | error e => cases e <;> rfl
  · rfl

/-- C2 counterexample: a parsed document with fewer than two portion-indicator
elements makes `extract_recipe_details` raise IndexError — it is not
exception-free. -/
theorem C2_counterexample :
    extract_recipe_details scraperX (some docOnePortionX) "B/r1" "Cat1" "LC"
      = .error .indexError := rfl

/-- C5: whenever a record is produced, its portion field is the stripped text
of the second matched portion element (index 1), rewritten to the literal
"1 ულუფა" exactly when the stripped text equals the bare "ულუფა" and kept
unchanged otherwise. -/
theorem C5_portion_from_second_element (self : Scraper) (soup : Node)
    (recipe_url sub_category_name sub_category_url : String) (r : Recipe) (portionEl : Node)
    (h : extract_recipe_details self (some soup) recipe_url sub_category_name sub_category_url
      = .ok (some r))
    (hp : (soup.find_all "div" (some self.config.recipe_page_classes.portion)).get? 1
      = some portionEl) :
    r.portion = if pyStrip portionEl.getText = "ულუფა" then "1 ულუფა"
                else pyStrip portionEl.getText := by
  simp only [extract_recipe_details] at h
  cases hb : recipe_body self soup recipe_url sub_category_name sub_category_url with
  | ok r2 =>
    rw [hb] at h
    injection h with h2
    injection h2 with h3
    subst h3
    obtain ⟨-, -, pe, hpe, hport⟩ := recipe_body_ok_spec self soup _ _ _ r2 hb
    rw [hp] at hpe
    injection hpe with h4
    subst h4
    exact hport
  | error e =>
    rw [hb] at h
    cases e with
    | attributeError =>
      injection h with h2
      exact Option.noConfusion h2
    | typeError => exact Except.noConfusion h
    | keyError => exact Except.noConfusion h
    | indexError => exact Except.noConfusion h

/-- Witness for C5: on the fixture page whose second portion element reads
" ულუფა ", the extracted record's portion is the rewritten "1 ულუფა". -/
theorem C5_witness : recPortionBareX.portion = "1 ულუფა" := by
  have h := C5_portion_from_second_element scraperX docPortionBareX "B/r1" "Cat1" "LC"
    recPortionBareX portionBareX rfl rfl
  exact h.trans (by decide)

/-- C10: when every required element is present but no element matches the
ingredients selector, `extract_recipe_details` still returns a record, and
its ingredients sequence is empty. -/
theorem C10_missing_ingredients_not_fatal (self : Scraper) (soup : Node)
    (recipe_url sub_category_name sub_category_url : String)
    (titleDiv imageDiv img descDiv authorDiv authorEl portionEl : Node) (srcVal : String)
    (h1 : soup.find "div" (some self.config.recipe_page_classes.recipe_title) = some titleDiv)
    (h2 : soup.find "div" (some self.config.recipe_page_classes.main_image) = some imageDiv)
    (h3 : imageDiv.find "img" none = some img)
    (h4 : img.attr "src" = some srcVal)
    (h5 : soup.find "div" (some self.config.recipe_page_classes.description) = some descDiv)
    (h6 : soup.find "div" (some self.config.recipe_page_classes.author) = some authorDiv)
    (h7 : authorDiv.find self.config.recipe_page_classes.author_name none = some authorEl)
    (h8 : (soup.find_all "div" (some self.config.recipe_page_classes.portion)).get? 1
      = some portionEl)
    (h9 : soup.find_all "div" (some self.config.recipe_page_classes.ingredients) = []) :
    Except.map (Option.map Recipe.ingredients)
      (extract_recipe_details self (some soup) recipe_url sub_category_name sub_category_url)
      = .ok (some []) := by
  simp only [extract_recipe_details, recipe_body, h1, h2, h3, h4, h5, h6, h7, h8, h9,
    List.map_nil, Except.map]
  rfl

/-- Witness for C10: the fixture page with no ingredient elements yields a
record with the empty ingredients sequence. -/
theorem C10_witness :
    Except.map (Option.map Recipe.ingredients)
      (extract_recipe_details scraperX (some docNoIngrX) "B/r1" "Cat1" "LC") = .ok (some []) :=
  C10_missing_ingredients_not_fatal scraperX docNoIngrX "B/r1" "Cat1" "LC"
    titleDivX imageDivX (.elem "img" [] [("src", "IMG")] []) descDivX authorDivX
    (.elem "span" [] [] [.text "Auth"]) portionSecondX "IMG"
    rfl rfl rfl rfl rfl rfl rfl rfl rfl

/-- C3 [corrected]: when the listing-page fetch fails, `_extract_recipe_urls`
does not raise, but it returns the empty sequence — it does not wrap the
category in a SubCategory value with empty recipe URLs. -/
theorem C3_fetch_failure_yields_empty_list (self : Scraper) (category : CategoryD) :
    _extract_recipe_urls self none category = .ok [] := rfl

/-- C3 counterexample: on a fetch failure the result is the empty sequence,
containing zero SubCategory values, where the claim promises a one-element
sequence holding a SubCategory with the category's name and URL. -/
theorem C3_counterexample :
    _extract_recipe_urls scraperX none catX = .ok [] ∧
    Except.map List.length (_extract_recipe_urls scraperX none catX) = .ok 0 := ⟨rfl, rfl⟩

/-! ## Lemmas: category resolution -/

theorem get_one_category_url_none (self : Scraper) :
    ∀ categories : List CategoryD,
      (∀ c ∈ categories, c.name ≠ self.config.main_category_name) →
      get_one_category_url self categories = none
  | [], _ => rfl
  | c :: rest, h => by
    unfold get_one_category_url
    rw [if_neg (h c (List.mem_cons_self _ _))]
    exact get_one_category_url_none self rest fun d hd => h d (List.mem_cons_of_mem c hd)

theorem get_one_category_url_first (self : Scraper) :
    ∀ (pre : List CategoryD) (c : CategoryD) (post : List CategoryD),
      (∀ d ∈ pre, d.name ≠ self.config.main_category_name) →
      c.name = self.config.main_category_name →
      get_one_category_url self (pre ++ c :: post) = some c.url
  | [], c, post, _, hc => by
    rw [List.nil_append]
    unfold get_one_category_url
    rw [if_pos hc]
  | d :: pre, c, post, hpre, hc => by
    rw [List.cons_append]
    unfold get_one_category_url
    rw [if_neg (hpre d (List.mem_cons_self _ _))]
    exact get_one_category_url_first self pre c post
      (fun x hx => hpre x (List.mem_cons_of_mem d hx)) hc

/-- C6: `get_one_category_url` returns absent when no category name equals the
configured target, and the URL of the first matching category otherwise. -/
theorem C6_first_matching_category (self : Scraper) (categories : List CategoryD) :
    ((∀ c ∈ categories, c.name ≠ self.config.main_category_name) →
      get_one_category_url self categories = none) ∧
    ∀ (pre : List CategoryD) (c : CategoryD) (post : List CategoryD),
      categories = pre ++ c :: post →
      (∀ d ∈ pre, d.name ≠ self.config.main_category_name) →
      c.name = self.config.main_category_name →
      get_one_category_url self categories = some c.url := by
  constructor
  · exact get_one_category_url_none self categories
  · intro pre c post hcat hpre hc
    rw [hcat]
    exact get_one_category_url_first self pre c post hpre hc

/-- Witness for C6: with target name "Main", a list with two matches resolves
to the first match's URL, and a list with no match resolves to absent. -/
theorem C6_witness :
    get_one_category_url scraperX
      [{ name := "A", url := "u1" }, { name := "Main", url := "u2" },
       { name := "Main", url := "u3" }] = some "u2" ∧
    get_one_category_url scraperX [{ name := "A", url := "u1" }] = none := by
  constructor
  · exact (C6_first_matching_category scraperX _).2 [{ name := "A", url := "u1" }]
      { name := "Main", url := "u2" } [{ name := "Main", url := "u3" }] rfl (by decide) rfl
  · exact (C6_first_matching_category scraperX _).1 (by decide)

/-! ## Lemmas: category listing -/

theorem categoriesLoop_valid (self : Scraper) :
    ∀ anchors : List Node,
      (∀ a ∈ anchors,
        ((a.find "div" (some self.config.category_classes.category_text)).isSome = true) ∧
        ((a.attr "href").isSome = true)) →
      categoriesLoop self anchors =
        .ok (anchors.map fun a =>
          { name := ((a.find "div" (some self.config.category_classes.category_text)).map
              Node.getTextStrip).getD ""
            url := self.config.base_url ++ ((a.attr "href").getD "") })
  | [], _ => rfl
  | a :: anchors, h => by
    obtain ⟨hn, hh⟩ := h a (List.mem_cons_self _ _)
    obtain ⟨nameDiv, hnd⟩ := Option.isSome_iff_exists.mp hn
    obtain ⟨href, hhr⟩ := Option.isSome_iff_exists.mp hh
    unfold categoriesLoop
    rw [hnd, hhr, categoriesLoop_valid self anchors fun x hx => h x (List.mem_cons_of_mem a hx)]
    simp [hnd, hhr]

/-- C8: when the categories container exists and every category anchor within
it carries a name div and an `href`, `get_categories` returns exactly one
Category per anchor, in document order, named by the anchor's stripped display
text and addressed by the base URL concatenated with the anchor's href; on a
fetch failure it returns the empty sequence. -/
theorem C8_listCategories_document_order (self : Scraper) (soup container : Node)
    (hc : soup.find "div" (some self.config.category_classes.main_category) = some container)
    (hvalid : ∀ a ∈ container.find_all "a" (some self.config.category_classes.category_item),
      ((a.find "div" (some self.config.category_classes.category_text)).isSome = true) ∧
      ((a.attr "href").isSome = true)) :
    get_categories self (some soup) =
      .ok ((container.find_all "a" (some self.config.category_classes.category_item)).map
        fun a =>
          { name := ((a.find "div" (some self.config.category_classes.category_text)).map
              Node.getTextStrip).getD ""
            url := self.config.base_url ++ ((a.attr "href").getD "") }) ∧
    get_categories self none = .ok [] := by
  constructor
  · have hbody : categories_body self soup
        = categoriesLoop self
            (container.find_all "a" (some self.config.category_classes.category_item)) := by
      simp only [categories_body, hc]
    simp only [get_categories, hbody, categoriesLoop_valid self _ hvalid]
  · rfl

/-- Witness for C8: the fixture index page with two valid anchors produces the
two expected Category dicts in document order. -/
theorem C8_witness :
    get_categories scraperX (some catPageX)
      = .ok [{ name := "Cat1", url := "B/c1" }, { name := "Cat2", url := "B/c2" }] := by
  have h := (C8_listCategories_document_order scraperX catPageX catContainerX rfl (by decide)).1
  exact h.trans rfl

/-! ## Lemmas: the recipe fan-out -/

/-- When the gather of `scrape_recipe` succeeds, the result sequence has one
entry per task, the i-th entry is the i-th task's extraction result, and the
absent entries are exactly the absent extraction results. -/
theorem gatherExtract_ok (self : Scraper) (fetch : String → Option Node) :
    ∀ (ts : List (String × String × String)) (res : List (Option Recipe)),
      gatherExtract self fetch ts = .ok res →
      res.length = ts.length ∧
      (∀ i t, ts.get? i = some t →
        res.get? i = (extract_recipe_details self (fetch t.1) t.1 t.2.1 t.2.2).toOption) ∧
      (res.filter Option.isNone).length =
        (ts.filter fun t =>
          is_absent (extract_recipe_details self (fetch t.1) t.1 t.2.1 t.2.2)).length
  | [], res, h => by
    injection h with h2
    subst h2
    refine ⟨rfl, ?_, rfl⟩
    intro i t ht
    cases i <;> exact Option.noConfusion ht
  | t :: ts, res, h => by
    unfold gatherExtract at h
    cases he : extract_recipe_details self (fetch t.1) t.1 t.2.1 t.2.2 with
    | error e =>
      rw [he] at h
      exact Except.noConfusion h
    | ok r =>
      rw [he] at h
      cases hg : gatherExtract self fetch ts with
      | error e =>
        rw [hg] at h
        exact Except.noConfusion h
      | ok rs =>
        rw [hg] at h
        injection h with h2
        subst h2
        obtain ⟨hlen, hidx, hcnt⟩ := gatherExtract_ok self fetch ts rs hg
        refine ⟨by simp [hlen], ?_, ?_⟩
        · intro i u hu
          cases i with
          | zero =>
            injection hu with hu2
            subst hu2
            rw [he]
            rfl
          | succ i => exact hidx i u hu
        · cases r with
          | none => simp [List.filter_cons, he, is_absent, hcnt]
          | some rec => simp [List.filter_cons, he, is_absent, hcnt]

/-- C9: when the recipe fan-out completes, the result sequence preserves
submission order — it has one entry per flattened (sub-category, recipe URL)
pair, and the i-th entry is the extraction result of the i-th submitted
pair. -/
theorem C9_submission_order_preserved (self : Scraper) (fetch : String → Option Node)
    (data : List SubCategoryD) (res : List (Option Recipe))
    (h : scrape_recipe self fetch data = .ok res) :
    res.length = (recipeTasks data).length ∧
    ∀ i t, (recipeTasks data).get? i = some t →
      res.get? i = (extract_recipe_details self (fetch t.1) t.1 t.2.1 t.2.2).toOption := by
  obtain ⟨h1, h2, -⟩ := gatherExtract_ok self fetch (recipeTasks data) res h
  exact ⟨h1, h2⟩

/-- Witness for C9: in the fixture run, the second submitted pair is the
broken page and the second result entry is its absent extraction result. -/
theorem C9_witness : resX.get? 1 = some none := by
  have h := (C9_submission_order_preserved scraperX fetchX [subcatX] resX rfl).2 1
    ("B/r2", "Cat1", "LC") rfl
  exact h.trans rfl

/-- C4 [corrected]: absent extraction results are not discarded — the final
sequence has exactly one entry per submitted pair, and the absent results
stay in it as null entries, in equal number to the failed extractions. -/
theorem C4_absent_results_not_discarded (self : Scraper) (fetch : String → Option Node)
    (data : List SubCategoryD) (res : List (Option Recipe))
    (h : scrape_recipe self fetch data = .ok res) :
    res.length = (recipeTasks data).length ∧
    (res.filter Option.isNone).length =
      ((recipeTasks data).filter fun t =>
        is_absent (extract_recipe_details self (fetch t.1) t.1 t.2.1 t.2.2)).length := by
  obtain ⟨h1, -, h3⟩ := gatherExtract_ok self fetch (recipeTasks data) res h
  exact ⟨h1, h3⟩

/-- Witness for C4: the amended theorem applied to the fixture run with three
submitted pairs, one of which fails structurally. -/
theorem C4_witness :
    resX.length = (recipeTasks [subcatX]).length ∧
    (resX.filter Option.isNone).length =
      ((recipeTasks [subcatX]).filter fun t =>
        is_absent (extract_recipe_details scraperX (fetchX t.1) t.1 t.2.1 t.2.2)).length :=
  C4_absent_results_not_discarded scraperX fetchX [subcatX] resX rfl

/-- C4 counterexample: in a run where 1 of 3 recipe pages fails structurally,
the orchestrator's final sequence has three entries, the failed one kept as a
null entry — not two records with absents discarded. -/
theorem C4_counterexample :
    Except.map (List.map Option.isSome) (main_results scraperX fetchX [catX])
      = .ok [true, false, true] := rfl

end KulinarScraper
